import Mathlib

/-!
Verification of the stock-dashboard portfolio logic.

Shallow embedding of the client-side logic of the repository:
* `src/components/LoginLogoutButton.tsx` — price/FX fetch helpers,
  the portfolio row computation (`fetchPortfolio`), the totals of
  `PortfolioTable`, and the edit-holding form.
* `src/components/AddStockFrom.tsx` — ticker lookup
  (`checkTickerAndName`), the EUR→USD rate helper
  (`fetchEuroToUsdRate`), the zod form schema and `onSubmit`.

JavaScript numbers are modelled as rationals (`ℚ`); in this model the
guarded divisions are total, so `NaN`/`Infinity` cannot arise where the
code guards the denominator.  Network effects are made explicit: each
fetching function takes the HTTP response it would observe as an
argument (`FetchResult`), with `networkError` standing for a thrown
fetch/JSON error, and the API key is an `Option String` (`none` models
an unset `NEXT_PUBLIC_POLYGON_API_KEY`).
-/

namespace StockDashboard

/-- Outcome of one `fetch` call: a parsed JSON body, or a thrown error
(network failure / JSON parse failure), which the source catches. -/
inductive FetchResult (α : Type) where
  | success : α → FetchResult α
  | networkError : FetchResult α
deriving DecidableEq

/-- One element of the `results` array of a previous-close aggregate
response. The close field `c` is `none` when absent or not a number
(the code tests `typeof closePrice === "number"`). -/
structure AggRecord where
  c : Option ℚ
deriving DecidableEq

/-- Body of a previous-close aggregate response
(`/v2/aggs/ticker/{t}/prev`): a `status` string and a `results` array
(an absent array is modelled as `[]`, which the code treats the same
way via its truthiness/length check). -/
structure AggsResponse where
  status : String
  results : List AggRecord
deriving DecidableEq

/-- The `results` object of a ticker-details response
(`/v3/reference/tickers/{t}`): the resolved ticker symbol and an
optional company name (`none` = field absent). -/
structure TickerResult where
  ticker : String
  name : Option String
deriving DecidableEq

/-- Body of a ticker-details response: `status` and an optional
`results` object. -/
structure TickerDetailsResponse where
  status : String
  results : Option TickerResult
deriving DecidableEq

/-- A row of the `portfolios` table as selected by `fetchPortfolio`
(`id, ticker, quantity, purchase_price, purchase_date`). -/
structure PortfolioItem where
  id : String
  ticker : String
  quantity : ℚ
  purchase_price : ℚ
  purchase_date : String
deriving DecidableEq

/-- `DisplayItem` of the source: a `PortfolioItem` extended with the
derived valuation fields. -/
structure DisplayItem extends PortfolioItem where
  current_price : ℚ
  market_value : ℚ
  cost_basis : ℚ
  gain_loss : ℚ
  gain_loss_percent : ℚ
deriving DecidableEq

/-- A JavaScript `Record<string, number>`: a partial map from keys to
numbers. -/
def StringRecord : Type := String → Option ℚ

/-- The empty record (`{}` / `Object.fromEntries([])`). -/
def emptyRecord : StringRecord := fun _ => none

/-- `record[key] = value` on a `Record<string, number>`. -/
def recordSet (r : StringRecord) (key : String) (value : ℚ) : StringRecord :=
  fun k => if k = key then some value else r k

/-- The price extracted from one previous-close response in
`fetchStockPrices`: `results[0].c` when the results array is nonempty
and the close is a number, `0` otherwise (including a thrown fetch
error). This branch of the code does not look at `status`. -/
def priceFromResponse (resp : FetchResult AggsResponse) : ℚ :=
  match resp with
  | FetchResult.networkError => 0
  | FetchResult.success data =>
    match data.results.head? with
    | some record => record.c.getD 0
    | none => 0

/-- `fetchStockPrices` of `LoginLogoutButton.tsx`: with no API key it
returns every requested ticker mapped to `0`; otherwise it loops over
the tickers, writing `priceFromResponse` of each ticker's response into
the record — a per-ticker failure writes `0` and the loop continues.
`responses t` is the response the loop observes for ticker `t`. -/
def fetchStockPrices (apiKey : Option String)
    (responses : String → FetchResult AggsResponse)
    (tickers : List String) : StringRecord :=
  if apiKey = none then tickers.foldl (fun r t => recordSet r t 0) emptyRecord
  else tickers.foldl (fun r t => recordSet r t (priceFromResponse (responses t))) emptyRecord

/-- `fetchExchangeRate` of `LoginLogoutButton.tsx`. Returns the rate
paired with the number of HTTP requests issued. `from === to` and a
missing API key return `1.0` before any request; afterwards any failure
(thrown error, empty/absent results, non-numeric close) falls back to
`1.0`. This branch of the code does not look at `status`. -/
def fetchExchangeRate (apiKey : Option String)
    (resp : FetchResult AggsResponse)
    (fromCur toCur : String) : ℚ × Nat :=
  if fromCur = toCur then (1, 0)
  else if apiKey = none then (1, 0)
  else
    match resp with
    | FetchResult.networkError => (1, 1)
    | FetchResult.success data =>
      match data.results.head? with
      | some record => (record.c.getD 1, 1)
      | none => (1, 1)

/-- `fetchEuroToUsdRate` of `AddStockFrom.tsx`: requires
`status === "OK"` and a nonempty results array with a numeric close;
every failure path (missing key, thrown error, bad status, missing
data, non-numeric close) returns the hardcoded fallback `1.08`. -/
def fetchEuroToUsdRate (apiKey : Option String)
    (resp : FetchResult AggsResponse) : ℚ :=
  if apiKey = none then 1.08
  else
    match resp with
    | FetchResult.networkError => 1.08
    | FetchResult.success data =>
      if data.status = "OK" then
        match data.results.head? with
        | some record => record.c.getD 1.08
        | none => 1.08
      else 1.08

/-- `data.results.name || ticker.toUpperCase()` of `checkTickerAndName`:
the company name unless it is absent or empty (falsy), in which case
the uppercased input. -/
def nameOrFallback (name : Option String) (fallback : String) : String :=
  match name with
  | some n => if n = "" then fallback else n
  | none => fallback

/-- `checkTickerAndName` of `AddStockFrom.tsx`. Returns
`(exists, companyName)`. An empty ticker or missing API key short-
circuits to `(false, none)` without a request; a thrown fetch error is
caught and yields `(false, none)`; a response counts as a match only
when `status = "OK"`, a `results` object is present, and its `ticker`
equals the uppercased input. -/
def checkTickerAndName (apiKey : Option String) (ticker : String)
    (resp : FetchResult TickerDetailsResponse) : Bool × Option String :=
  if ticker = "" ∨ apiKey = none then (false, none)
  else
    match resp with
    | FetchResult.networkError => (false, none)
    | FetchResult.success data =>
      match data.results with
      | some result =>
        if data.status = "OK" ∧ result.ticker = ticker.toUpper then
          (true, some (nameOrFallback result.name ticker.toUpper))
        else (false, none)
      | none => (false, none)

/-- The per-holding row computation inside `fetchPortfolio`
(the `portfolio.map` body): current price from the price record with
`|| 0` defaulting, then cost basis, market value, gain/loss and the
zero-guarded gain/loss percentage. (For rational prices, JavaScript
`prices[t] || 0` coincides with defaulting only the absent case, since
`0 || 0` is `0`.) -/
def mkDisplayItem (prices : StringRecord) (item : PortfolioItem) : DisplayItem :=
  let currentPrice : ℚ := (prices item.ticker).getD 0
  let costBasis : ℚ := item.quantity * item.purchase_price
  let marketValue : ℚ := item.quantity * currentPrice
  let gainLoss : ℚ := marketValue - costBasis
  { toPortfolioItem := item
    current_price := currentPrice
    market_value := marketValue
    cost_basis := costBasis
    gain_loss := gainLoss
    gain_loss_percent := if costBasis = 0 then 0 else gainLoss / costBasis * 100 }

/-- `displayHoldings` of `fetchPortfolio`: the row computation mapped
over the fetched portfolio. -/
def fetchPortfolioRows (prices : StringRecord)
    (portfolio : List PortfolioItem) : List DisplayItem :=
  portfolio.map (mkDisplayItem prices)

/-- `totalMarketValue` of `PortfolioTable`:
`holdings.reduce((sum, item) => sum + item.market_value, 0) * exchangeRate`. -/
def totalMarketValue (holdings : List DisplayItem) (exchangeRate : ℚ) : ℚ :=
  (holdings.foldl (fun sum item => sum + item.market_value) 0) * exchangeRate

/-- `totalCostBasis` of `PortfolioTable`. -/
def totalCostBasis (holdings : List DisplayItem) (exchangeRate : ℚ) : ℚ :=
  (holdings.foldl (fun sum item => sum + item.cost_basis) 0) * exchangeRate

/-- `totalGainLoss` of `PortfolioTable`. -/
def totalGainLoss (holdings : List DisplayItem) (exchangeRate : ℚ) : ℚ :=
  totalMarketValue holdings exchangeRate - totalCostBasis holdings exchangeRate

/-- `totalGainLossPercent` of `PortfolioTable`, guarded on the
converted cost basis. -/
def totalGainLossPercent (holdings : List DisplayItem) (exchangeRate : ℚ) : ℚ :=
  if totalCostBasis holdings exchangeRate = 0 then 0
  else totalGainLoss holdings exchangeRate / totalCostBasis holdings exchangeRate * 100

/-- The numeric cells of one rendered table row of `PortfolioTable`:
the money amounts are multiplied by `exchangeRate` before formatting,
the percentage is rendered as stored. -/
structure RenderedRow where
  costPerShare : ℚ
  currentPrice : ℚ
  marketValue : ℚ
  gainLoss : ℚ
  gainLossPercent : ℚ
deriving DecidableEq

/-- The row-rendering of `PortfolioTable`'s table body. -/
def renderRow (holding : DisplayItem) (exchangeRate : ℚ) : RenderedRow :=
  { costPerShare := holding.purchase_price * exchangeRate
    currentPrice := holding.current_price * exchangeRate
    marketValue := holding.market_value * exchangeRate
    gainLoss := holding.gain_loss * exchangeRate
    gainLossPercent := holding.gain_loss_percent }

/-- Values of the add form (`z.infer<typeof formSchema>`). -/
structure FormValues where
  ticker : String
  quantity : ℚ
  purchase_price : ℚ
  purchase_date : String
  purchase_currency : String
deriving DecidableEq

/-- The row inserted into `portfolios` by `onSubmit`. -/
structure InsertRow where
  user_id : String
  ticker : String
  quantity : ℚ
  purchase_price : ℚ
  purchase_date : String
deriving DecidableEq

/-- `formSchema` of `AddStockFrom.tsx`: ticker nonempty (then
uppercased by `.toUpperCase()`), quantity ≥ 1, price ≥ 0.01, date
nonempty, currency in {USD, EUR}. Returns the parsed (transformed)
values on success, `none` on a validation failure. -/
def applyFormSchema (v : FormValues) : Option FormValues :=
  if v.ticker ≠ "" ∧ 1 ≤ v.quantity ∧ (0.01 : ℚ) ≤ v.purchase_price ∧
      v.purchase_date ≠ "" ∧ (v.purchase_currency = "USD" ∨ v.purchase_currency = "EUR")
  then some { v with ticker := v.ticker.toUpper }
  else none

/-- `onSubmit` of `AddStockFrom.tsx`, as the insert it issues (`none`
when it returns without inserting). `tickerValidated` is the
`boolean | null` state; `!tickerValidated` blocks unless it is
`some true`. A missing user blocks. If the currency is EUR the entered
price is multiplied by the fetched EUR→USD rate before storage. -/
def onSubmit (tickerValidated : Option Bool) (user : Option String)
    (euroToUsdRate : ℚ) (values : FormValues) : Option InsertRow :=
  if tickerValidated = some true then
    user.map (fun uid =>
      { user_id := uid
        ticker := values.ticker
        quantity := values.quantity
        purchase_price :=
          if values.purchase_currency = "EUR" then
            values.purchase_price * euroToUsdRate
          else values.purchase_price
        purchase_date := values.purchase_date })
  else none

/-- The whole submit pipeline: `form.handleSubmit(onSubmit)` runs the
zod resolver first and only calls `onSubmit` with the parsed values. -/
def submitForm (tickerValidated : Option Bool) (user : Option String)
    (euroToUsdRate : ℚ) (v : FormValues) : Option InsertRow :=
  (applyFormSchema v).bind (fun values => onSubmit tickerValidated user euroToUsdRate values)

/-- The local state of `EditHoldingForm` (`quantity`, `purchase_price`,
`purchase_date`). -/
structure EditFormState where
  quantity : ℚ
  purchase_price : ℚ
  purchase_date : String
deriving DecidableEq

/-- Initial edit-form state, copied from the holding being edited. -/
def editFormInit (holding : PortfolioItem) : EditFormState :=
  { quantity := holding.quantity
    purchase_price := holding.purchase_price
    purchase_date := holding.purchase_date }

/-- The quantity field's `onChange`:
`parseFloat(e.target.value) || 0`. The raw input is `none` when
`parseFloat` yields `NaN` (e.g. an empty field). -/
def editSetQuantity (s : EditFormState) (raw : Option ℚ) : EditFormState :=
  { s with quantity := raw.getD 0 }

/-- The price field's `onChange`: `parseFloat(e.target.value) || 0`. -/
def editSetPrice (s : EditFormState) (raw : Option ℚ) : EditFormState :=
  { s with purchase_price := raw.getD 0 }

/-- The date field's `onChange`. -/
def editSetDate (s : EditFormState) (raw : String) : EditFormState :=
  { s with purchase_date := raw }

/-- `handleSave` of `EditHoldingForm`: the update payload sent to
`portfolios` is exactly the current form state, with no validation. -/
def handleSaveFields (s : EditFormState) : EditFormState := s

/-- Concrete holding of the spec scenario:
`{ticker:"AAPL", qty:10, price:100}`. -/
def aaplHolding : PortfolioItem :=
  { id := "h1", ticker := "AAPL", quantity := 10,
    purchase_price := 100, purchase_date := "2024-01-02" }

/-- Concrete price map of the spec scenario: `{AAPL:150}`. -/
def aaplPrices : StringRecord := recordSet emptyRecord "AAPL" 150

/-- A concrete holding used for the edit-flow counterexample. -/
def sampleHolding : PortfolioItem :=
  { id := "h2", ticker := "MSFT", quantity := 5,
    purchase_price := 40, purchase_date := "2023-06-01" }

/-- A concrete EUR-denominated add-form submission. -/
def sampleFormEUR : FormValues :=
  { ticker := "aapl", quantity := 2, purchase_price := 10,
    purchase_date := "2024-01-02", purchase_currency := "EUR" }

/-- The row the add flow inserts for `sampleFormEUR` when the EUR→USD
fetch falls back to 1.08. -/
def sampleInsertEUR : InsertRow :=
  { user_id := "u1", ticker := "aapl".toUpper, quantity := 2,
    purchase_price := 10 * 1.08, purchase_date := "2024-01-02" }

/-- A concrete exact-match ticker-details response for `AAPL`. -/
def sampleTickerResp : FetchResult TickerDetailsResponse :=
  FetchResult.success ⟨"OK", some ⟨"AAPL".toUpper, some "Apple Inc."⟩⟩

/-- A response function on which every per-ticker fetch throws. -/
def sampleResponses : String → FetchResult AggsResponse :=
  fun _ => FetchResult.networkError

/-! ### Helper lemmas -/

/-- A left fold adding `f` of each element equals the initial value plus
the sum of the mapped list. -/
theorem foldl_add_eq_sum (f : DisplayItem → ℚ) (l : List DisplayItem) (init : ℚ) :
    l.foldl (fun s x => s + f x) init = init + (l.map f).sum := by
  induction l generalizing init with
  | nil => simp
  | cons a t ih => simp only [List.foldl_cons, List.map_cons, List.sum_cons, ih]; ring

/-- The scalar factor distributes over a mapped sum. -/
theorem sum_map_mul (f : DisplayItem → ℚ) (r : ℚ) (l : List DisplayItem) :
    (l.map (fun x => f x * r)).sum = (l.map f).sum * r := by
  induction l with
  | nil => simp
  | cons a t ih => simp only [List.map_cons, List.sum_cons, ih]; ring

/-- Summing already-converted per-row values equals converting the sum:
the scalar factor distributes over the fold. -/
theorem foldl_add_mul (f : DisplayItem → ℚ) (r : ℚ) (l : List DisplayItem) :
    l.foldl (fun s x => s + f x * r) 0 = (l.foldl (fun s x => s + f x) 0) * r := by
  rw [foldl_add_eq_sum (fun x => f x * r) l 0, foldl_add_eq_sum f l 0,
    zero_add, zero_add, sum_map_mul]

/-- Case analysis of `checkTickerAndName`: either every match condition
holds (nonempty ticker, configured key, OK status, exact uppercased
ticker match) and the result is `(true, some name)` with the fallback
display name, or some condition fails and the result is exactly
`(false, none)`. -/
theorem checkTickerAndName_spec (apiKey : Option String) (ticker : String)
    (resp : FetchResult TickerDetailsResponse) :
    (ticker ≠ "" ∧ apiKey ≠ none ∧ ∃ data result,
      resp = FetchResult.success data ∧ data.status = "OK" ∧
      data.results = some result ∧ result.ticker = ticker.toUpper ∧
      checkTickerAndName apiKey ticker resp =
        (true, some (nameOrFallback result.name ticker.toUpper))) ∨
    (checkTickerAndName apiKey ticker resp = (false, none) ∧
      ¬(ticker ≠ "" ∧ apiKey ≠ none ∧ ∃ data result,
        resp = FetchResult.success data ∧ data.status = "OK" ∧
        data.results = some result ∧ result.ticker = ticker.toUpper)) := by
  by_cases h0 : ticker = "" ∨ apiKey = none
  · right
    refine ⟨by unfold checkTickerAndName; rw [if_pos h0], ?_⟩
    rintro ⟨ht, hk, -⟩
    rcases h0 with h0 | h0
    exacts [ht h0, hk h0]
  · have hne := not_or.mp h0
    cases resp with
    | networkError =>
      right
      refine ⟨by unfold checkTickerAndName; rw [if_neg h0], ?_⟩
      rintro ⟨-, -, data, result, hresp, -⟩
      exact FetchResult.noConfusion hresp
    | success data =>
      cases hres : data.results with
      | none =>
        right
        constructor
        · unfold checkTickerAndName
          rw [if_neg h0]
          simp only [hres]
        · rintro ⟨-, -, data2, result, hresp, -, hres2, -⟩
          injection hresp with hd
          subst hd
          rw [hres] at hres2
          exact Option.noConfusion hres2
      | some result =>
        by_cases hcond : data.status = "OK" ∧ result.ticker = ticker.toUpper
        · left
          refine ⟨hne.1, hne.2, data, result, rfl, hcond.1, hres, hcond.2, ?_⟩
          unfold checkTickerAndName
          rw [if_neg h0]
          simp only [hres]
          rw [if_pos hcond]
        · right
          constructor
          · unfold checkTickerAndName
            rw [if_neg h0]
            simp only [hres]
            rw [if_neg hcond]
          · rintro ⟨-, -, data2, result2, hresp, hok, hres2, htick⟩
            injection hresp with hd
            subst hd
            rw [hres] at hres2
            injection hres2 with hr
            subst hr
            exact hcond ⟨hok, htick⟩

/-- Looking up `t` in the record built by folding `recordSet` over a
ticker list: `some (f t)` when `t` was visited, the initial record's
value otherwise. -/
theorem foldl_recordSet_lookup (f : String → ℚ) (tickers : List String)
    (r : StringRecord) (t : String) :
    (tickers.foldl (fun acc x => recordSet acc x (f x)) r) t =
      if t ∈ tickers then some (f t) else r t := by
  induction tickers generalizing r with
  | nil => simp
  | cons a rest ih =>
    rw [List.foldl_cons, ih]
    by_cases hmem : t ∈ rest
    · rw [if_pos hmem, if_pos (List.mem_cons.mpr (Or.inr hmem))]
    · rw [if_neg hmem]
      unfold recordSet
      by_cases hta : t = a
      · subst hta
        rw [if_pos rfl, if_pos (List.mem_cons.mpr (Or.inl rfl))]
      · rw [if_neg hta, if_neg (by rw [List.mem_cons]; push_neg; exact ⟨hta, hmem⟩)]

/-- Inversion of the submit pipeline: a successful submission implies
the ticker state was `Valid`, a user was present, every schema bound
held on the raw values, and the inserted row carries the uppercased
ticker, the raw quantity and date, and the (possibly EUR-converted)
price. -/
theorem submitForm_inv (tv : Option Bool) (user : Option String) (rate : ℚ)
    (v : FormValues) (row : InsertRow)
    (h : submitForm tv user rate v = some row) :
    tv = some true ∧ (∃ uid, user = some uid ∧ row.user_id = uid) ∧
    v.ticker ≠ "" ∧ 1 ≤ v.quantity ∧ (0.01 : ℚ) ≤ v.purchase_price ∧
    v.purchase_date ≠ "" ∧ (v.purchase_currency = "USD" ∨ v.purchase_currency = "EUR") ∧
    row.ticker = v.ticker.toUpper ∧ row.quantity = v.quantity ∧
    row.purchase_price =
      (if v.purchase_currency = "EUR" then v.purchase_price * rate else v.purchase_price) ∧
    row.purchase_date = v.purchase_date := by
  unfold submitForm at h
  rw [Option.bind_eq_some] at h
  obtain ⟨values, hschema, hsub⟩ := h
  unfold applyFormSchema at hschema
  split at hschema
  case isTrue hcond =>
    simp only [Option.some.injEq] at hschema
    subst hschema
    unfold onSubmit at hsub
    split at hsub
    case isTrue htv =>
      rw [Option.map_eq_some'] at hsub
      obtain ⟨uid, huser, hrow⟩ := hsub
      subst hrow
      exact ⟨htv, ⟨uid, huser, rfl⟩, hcond.1, hcond.2.1, hcond.2.2.1, hcond.2.2.2.1,
        hcond.2.2.2.2, rfl, rfl, rfl, rfl⟩
    case isFalse => exact Option.noConfusion hsub
  case isFalse => exact Option.noConfusion hschema

end StockDashboard

namespace StockDashboard

/-! ### Claims -/

/-- Claim C1: for every holdings list and price map, the row computation
in `fetchPortfolio` produces for each holding `currentPrice =
priceMap[ticker]` (defaulting to 0 when absent), `marketValue =
quantity * currentPrice`, `costBasis = quantity * purchasePriceUsd`,
`gainLoss = marketValue - costBasis`, and `gainLossPercent = 0` when
`costBasis = 0` and `gainLoss / costBasis * 100` otherwise (total in the
rational model, so never NaN/Infinity); in particular the AAPL scenario
yields marketValue 1500, costBasis 1000, gainLoss 500,
gainLossPercent 50. -/
theorem fetchPortfolio_row_correct :
    (∀ (prices : StringRecord) (item : PortfolioItem),
      (mkDisplayItem prices item).current_price = (prices item.ticker).getD 0 ∧
      (mkDisplayItem prices item).market_value =
        item.quantity * (mkDisplayItem prices item).current_price ∧
      (mkDisplayItem prices item).cost_basis = item.quantity * item.purchase_price ∧
      (mkDisplayItem prices item).gain_loss =
        (mkDisplayItem prices item).market_value - (mkDisplayItem prices item).cost_basis ∧
      (mkDisplayItem prices item).gain_loss_percent =
        (if (mkDisplayItem prices item).cost_basis = 0 then 0
         else (mkDisplayItem prices item).gain_loss / (mkDisplayItem prices item).cost_basis * 100)) ∧
    ((mkDisplayItem aaplPrices aaplHolding).market_value = 1500 ∧
     (mkDisplayItem aaplPrices aaplHolding).cost_basis = 1000 ∧
     (mkDisplayItem aaplPrices aaplHolding).gain_loss = 500 ∧
     (mkDisplayItem aaplPrices aaplHolding).gain_loss_percent = 50) := by
  refine ⟨fun prices item => ?_, ?_⟩
  · simp [mkDisplayItem]
  · refine ⟨?_, ?_, ?_, ?_⟩ <;>
      norm_num [mkDisplayItem, aaplPrices, aaplHolding, recordSet, emptyRecord]

/-- Claim C2: the `PortfolioTable` totals are the per-row sums scaled by
the exchange rate (equivalently, the sums of the per-row converted
values), `totalGainLoss` is their difference, `totalGainLossPercent` is
derived from the converted totals with 0 when the converted cost basis
is 0, and the empty holdings list yields all four totals 0. -/
theorem portfolioTable_totals_correct :
    ∀ (holdings : List DisplayItem) (exchangeRate : ℚ),
      (totalMarketValue holdings exchangeRate =
        (holdings.foldl (fun s i => s + i.market_value) 0) * exchangeRate) ∧
      (totalMarketValue holdings exchangeRate =
        holdings.foldl (fun s i => s + i.market_value * exchangeRate) 0) ∧
      (totalCostBasis holdings exchangeRate =
        (holdings.foldl (fun s i => s + i.cost_basis) 0) * exchangeRate) ∧
      (totalCostBasis holdings exchangeRate =
        holdings.foldl (fun s i => s + i.cost_basis * exchangeRate) 0) ∧
      (totalGainLoss holdings exchangeRate =
        totalMarketValue holdings exchangeRate - totalCostBasis holdings exchangeRate) ∧
      (totalGainLossPercent holdings exchangeRate =
        (if totalCostBasis holdings exchangeRate = 0 then 0
         else totalGainLoss holdings exchangeRate / totalCostBasis holdings exchangeRate * 100)) ∧
      (totalMarketValue [] exchangeRate = 0 ∧ totalCostBasis [] exchangeRate = 0 ∧
       totalGainLoss [] exchangeRate = 0 ∧ totalGainLossPercent [] exchangeRate = 0) := by
  intro holdings exchangeRate
  refine ⟨rfl, ?_, rfl, ?_, rfl, rfl, ?_⟩
  · rw [foldl_add_mul]; rfl
  · rw [foldl_add_mul]; rfl
  · refine ⟨?_, ?_, ?_, ?_⟩ <;>
      simp [totalMarketValue, totalCostBasis, totalGainLoss, totalGainLossPercent]

/-- Claim C3: a valid add-form submission with currency EUR and entered
price `P` stores `P * R` as `purchase_price`, where `R` is the fetched
EUR→USD rate (1.08 whenever the API key is missing or the fetch fails);
with currency USD it stores `P` unchanged. -/
theorem addFlow_currency_conversion :
    ∀ (apiKey : Option String) (resp : FetchResult AggsResponse)
      (tickerValidated : Option Bool) (user : Option String)
      (v : FormValues) (row : InsertRow),
      submitForm tickerValidated user (fetchEuroToUsdRate apiKey resp) v = some row →
      (v.purchase_currency = "EUR" →
        row.purchase_price = v.purchase_price * fetchEuroToUsdRate apiKey resp) ∧
      (v.purchase_currency = "USD" → row.purchase_price = v.purchase_price) ∧
      ((apiKey = none ∨ resp = FetchResult.networkError) →
        fetchEuroToUsdRate apiKey resp = 1.08) := by
  intro apiKey resp tv user v row h
  obtain ⟨-, -, -, -, -, -, -, -, -, hprice, -⟩ := submitForm_inv tv user _ v row h
  refine ⟨fun hEUR => ?_, fun hUSD => ?_, fun hfail => ?_⟩
  · rw [hprice, if_pos hEUR]
  · have hne : v.purchase_currency ≠ "EUR" := by rw [hUSD]; decide
    rw [hprice, if_neg hne]
  · rcases hfail with hk | hr
    · subst hk; rfl
    · subst hr; cases apiKey <;> rfl

/-- Witness for C3: a concrete EUR submission with a missing API key
stores `10 * 1.08`. -/
theorem addFlow_currency_conversion_witness :
    sampleInsertEUR.purchase_price =
      sampleFormEUR.purchase_price * fetchEuroToUsdRate none FetchResult.networkError :=
  (addFlow_currency_conversion none FetchResult.networkError (some true) (some "u1")
    sampleFormEUR sampleInsertEUR
    (by norm_num +decide [submitForm, applyFormSchema, onSubmit, sampleFormEUR, sampleInsertEUR,
      fetchEuroToUsdRate, Option.bind])).1 rfl

/-- Claim C6: submission is blocked unless the ticker-validation state
is Valid (`some true`), and the form schema rejects empty tickers,
quantities below 1, prices below 0.01, empty dates, and currencies
outside USD/EUR — in all these cases no insert is issued. -/
theorem addForm_submission_guard :
    ∀ (tv : Option Bool) (user : Option String) (rate : ℚ) (v : FormValues),
      (tv ≠ some true → submitForm tv user rate v = none) ∧
      ((v.ticker = "" ∨ v.quantity < 1 ∨ v.purchase_price < (0.01 : ℚ) ∨
          v.purchase_date = "" ∨ (v.purchase_currency ≠ "USD" ∧ v.purchase_currency ≠ "EUR")) →
        submitForm tv user rate v = none) := by
  intro tv user rate v
  constructor
  · intro htv
    cases h : submitForm tv user rate v with
    | none => rfl
    | some row => exact absurd (submitForm_inv tv user rate v row h).1 htv
  · intro hviol
    cases h : submitForm tv user rate v with
    | none => rfl
    | some row =>
      obtain ⟨-, -, ht, hq, hp, hd, hc, -, -, -, -⟩ := submitForm_inv tv user rate v row h
      rcases hviol with h1 | h1 | h1 | h1 | ⟨h1, h2⟩
      · exact absurd h1 ht
      · exact absurd hq (not_le.mpr h1)
      · exact absurd hp (not_le.mpr h1)
      · exact absurd h1 hd
      · rcases hc with hc | hc
        · exact absurd hc h1
        · exact absurd hc h2

/-- Witness for C6: with the ticker state still `null`, a concrete
submission issues no insert. -/
theorem addForm_submission_guard_witness :
    submitForm none (some "u1") 1 sampleFormEUR = none :=
  (addForm_submission_guard none (some "u1") 1 sampleFormEUR).1 (by decide)

/-- Claim C4: `checkTickerAndName` reports the ticker as existing iff
the symbol is nonempty, the API key is configured, no network error was
thrown, and the response has status OK with a results object whose
ticker equals the uppercased input; in every other case (including
swallowed failures) the result is exactly `(false, none)`. -/
theorem checkTickerAndName_exists_iff :
    ∀ (apiKey : Option String) (ticker : String) (resp : FetchResult TickerDetailsResponse),
      ((checkTickerAndName apiKey ticker resp).1 = true ↔
        (ticker ≠ "" ∧ apiKey ≠ none ∧ ∃ data result,
          resp = FetchResult.success data ∧ data.status = "OK" ∧
          data.results = some result ∧ result.ticker = ticker.toUpper)) ∧
      ((checkTickerAndName apiKey ticker resp).1 = false →
        checkTickerAndName apiKey ticker resp = (false, none)) := by
  intro apiKey ticker resp
  rcases checkTickerAndName_spec apiKey ticker resp with
    ⟨ht, hk, data, result, hresp, hok, hres, htick, heq⟩ | ⟨heq, hnot⟩
  · refine ⟨⟨fun _ => ⟨ht, hk, data, result, hresp, hok, hres, htick⟩, fun _ => by rw [heq]⟩,
      fun hf => ?_⟩
    rw [heq] at hf
    exact absurd hf (by simp)
  · refine ⟨⟨fun htrue => ?_, fun hconds => ?_⟩, fun _ => heq⟩
    · rw [heq] at htrue
      exact absurd htrue (by simp)
    · obtain ⟨ht, hk, data, result, hresp, hok, hres, htick⟩ := hconds
      exact absurd ⟨ht, hk, data, result, hresp, hok, hres, htick⟩ hnot

/-- Witness for C4: with no API key the check on `AAPL` reports
`(false, none)`, the swallowed-failure shape. -/
theorem checkTickerAndName_exists_iff_witness :
    checkTickerAndName none "AAPL" FetchResult.networkError = (false, none) :=
  (checkTickerAndName_exists_iff none "AAPL" FetchResult.networkError).2
    (by simp [checkTickerAndName])

/-- Claim C10: whenever `checkTickerAndName` reports the ticker as
existing, the returned name is non-null: it is the API name, with the
uppercased input substituted when the name field is missing or empty
(the `||` fallback), so a verified ticker always carries a display
name. -/
theorem checkTickerAndName_verified_name :
    ∀ (apiKey : Option String) (ticker : String) (resp : FetchResult TickerDetailsResponse),
      (checkTickerAndName apiKey ticker resp).1 = true →
      (checkTickerAndName apiKey ticker resp).2 ≠ none ∧
      ∃ data result, resp = FetchResult.success data ∧ data.results = some result ∧
        (checkTickerAndName apiKey ticker resp).2 =
          some (nameOrFallback result.name ticker.toUpper) := by
  intro apiKey ticker resp htrue
  rcases checkTickerAndName_spec apiKey ticker resp with
    ⟨-, -, data, result, hresp, -, hres, -, heq⟩ | ⟨heq, -⟩
  · exact ⟨by rw [heq]; simp, data, result, hresp, hres, by rw [heq]⟩
  · rw [heq] at htrue
    exact absurd htrue (by simp)

/-- Witness for C10: a concrete verified `AAPL` lookup carries the
API-provided company name. -/
theorem checkTickerAndName_verified_name_witness :
    (checkTickerAndName (some "key") "AAPL" sampleTickerResp).2 ≠ none ∧
    ∃ data result, sampleTickerResp = FetchResult.success data ∧
      data.results = some result ∧
      (checkTickerAndName (some "key") "AAPL" sampleTickerResp).2 =
        some (nameOrFallback result.name "AAPL".toUpper) :=
  checkTickerAndName_verified_name (some "key") "AAPL" sampleTickerResp
    (by simp [checkTickerAndName, sampleTickerResp])

/-- Claim C5: `fetchStockPrices` returns a map whose keys are exactly
the requested tickers; each ticker maps to its previous-close value
when the response carries a numeric close, and to the sentinel 0 on any
failure (missing key, missing data, non-numeric close, thrown error);
one ticker's failure never drops another ticker from the result. -/
theorem fetchStockPrices_complete :
    ∀ (apiKey : Option String) (responses : String → FetchResult AggsResponse)
      (tickers : List String) (t : String),
      ((fetchStockPrices apiKey responses tickers t).isSome ↔ t ∈ tickers) ∧
      (t ∈ tickers →
        fetchStockPrices apiKey responses tickers t =
          some (if apiKey = none then 0 else priceFromResponse (responses t))) := by
  intro apiKey responses tickers t
  unfold fetchStockPrices
  by_cases hk : apiKey = none
  · rw [if_pos hk]
    constructor
    · rw [foldl_recordSet_lookup]
      by_cases hmem : t ∈ tickers
      · simp [hmem]
      · simp [hmem, emptyRecord]
    · intro hmem
      rw [foldl_recordSet_lookup, if_pos hmem, if_pos hk]
  · rw [if_neg hk]
    constructor
    · rw [foldl_recordSet_lookup]
      by_cases hmem : t ∈ tickers
      · simp [hmem]
      · simp [hmem, emptyRecord]
    · intro hmem
      rw [foldl_recordSet_lookup, if_pos hmem, if_neg hk]

/-- Witness for C5: with every per-ticker fetch throwing, the second
requested ticker is still present, with sentinel price 0. -/
theorem fetchStockPrices_complete_witness :
    fetchStockPrices (some "key") sampleResponses ["AAPL", "MSFT"] "MSFT" =
      some (if (some "key" : Option String) = none then 0
            else priceFromResponse (sampleResponses "MSFT")) :=
  (fetchStockPrices_complete (some "key") sampleResponses ["AAPL", "MSFT"] "MSFT").2
    (by simp)

/-- Counterexample to C7 as stated: editing the sample holding with a
quantity input that fails to parse (`parseFloat` yields `NaN`, `|| 0`
turns it into `0`) makes `handleSave` issue an update whose quantity is
0 — the edit flow accepts this input and the written quantity is not
positive. -/
theorem editFlow_nonpositive_update :
    ¬ (0 < (handleSaveFields (editSetQuantity (editFormInit sampleHolding) none)).quantity) := by
  norm_num [handleSaveFields, editSetQuantity, editFormInit, sampleHolding]

/-- C7 amended: every row inserted by the add flow has positive
quantity (the schema bound quantity ≥ 1); the edit flow's update
carries the form state unvalidated, so only the add flow preserves the
positivity invariant. -/
theorem addFlow_insert_positive_quantity :
    ∀ (tv : Option Bool) (user : Option String) (rate : ℚ)
      (v : FormValues) (row : InsertRow),
      submitForm tv user rate v = some row → 0 < row.quantity := by
  intro tv user rate v row h
  obtain ⟨-, -, -, hq, -, -, -, -, hrq, -, -⟩ := submitForm_inv tv user rate v row h
  rw [hrq]
  exact lt_of_lt_of_le one_pos hq

/-- Witness for C7 (amended part): a concrete accepted submission
inserts quantity 2 > 0. -/
theorem addFlow_insert_positive_quantity_witness :
    0 < sampleInsertEUR.quantity :=
  addFlow_insert_positive_quantity (some true) (some "u1") 1.08 sampleFormEUR sampleInsertEUR
    (by norm_num +decide [submitForm, applyFormSchema, onSubmit, sampleFormEUR,
      sampleInsertEUR, Option.bind])

/-- Claim C8: `fetchExchangeRate` returns 1.0 without issuing a request
when the two currencies coincide (and when the key is missing), falls
back to the generic 1.0 on every failure (a non-1.0 rate can only come
from a successful response with a numeric close), while
`fetchEuroToUsdRate` falls back to the hardcoded 1.08 on its failure
paths — two different fallback constants. -/
theorem fx_fallback_constants :
    ∀ (apiKey : Option String) (resp : FetchResult AggsResponse) (fromCur toCur : String),
      (fromCur = toCur → fetchExchangeRate apiKey resp fromCur toCur = (1, 0)) ∧
      (apiKey = none → fetchExchangeRate apiKey resp fromCur toCur = (1, 0)) ∧
      ((fetchExchangeRate apiKey resp fromCur toCur).1 ≠ 1 →
        ∃ data record, resp = FetchResult.success data ∧
          data.results.head? = some record ∧ record.c ≠ none) ∧
      ((apiKey = none ∨ resp = FetchResult.networkError ∨
          (∃ data, resp = FetchResult.success data ∧
            (data.status ≠ "OK" ∨ data.results.head? = none ∨
              ∃ record, data.results.head? = some record ∧ record.c = none))) →
        fetchEuroToUsdRate apiKey resp = 1.08) ∧
      (1 : ℚ) ≠ 1.08 := by
  intro apiKey resp fromCur toCur
  refine ⟨fun hft => by unfold fetchExchangeRate; rw [if_pos hft], fun hk => ?_, ?_, ?_,
    by norm_num⟩
  · subst hk
    unfold fetchExchangeRate
    by_cases hft : fromCur = toCur
    · rw [if_pos hft]
    · rw [if_neg hft, if_pos rfl]
  · intro hne
    by_cases hft : fromCur = toCur
    · exact absurd (by simp [fetchExchangeRate, hft]) hne
    · cases apiKey with
      | none => exact absurd (by simp [fetchExchangeRate, hft]) hne
      | some key =>
        cases resp with
        | networkError => exact absurd (by simp [fetchExchangeRate, hft]) hne
        | success data =>
          cases hh : data.results.head? with
          | none => exact absurd (by simp [fetchExchangeRate, hft, hh]) hne
          | some record =>
            cases hc : record.c with
            | none => exact absurd (by simp [fetchExchangeRate, hft, hh, hc]) hne
            | some q => exact ⟨data, record, rfl, hh, by rw [hc]; simp⟩
  · intro hfail
    rcases hfail with hk | hr | ⟨data, hresp, hbad⟩
    · unfold fetchEuroToUsdRate; rw [if_pos hk]
    · subst hr
      by_cases hk : apiKey = none
      · unfold fetchEuroToUsdRate; rw [if_pos hk]
      · simp [fetchEuroToUsdRate, hk]
    · subst hresp
      by_cases hk : apiKey = none
      · unfold fetchEuroToUsdRate; rw [if_pos hk]
      · rcases hbad with hbad | hbad | ⟨record, hh, hc⟩
        · simp [fetchEuroToUsdRate, hk, hbad]
        · simp [fetchEuroToUsdRate, hk, hbad]
        · simp [fetchEuroToUsdRate, hk, hh, hc]

/-- Witness for C8: with equal currencies the exchange-rate helper
returns 1.0 and issues no request. -/
theorem fx_fallback_constants_witness :
    fetchExchangeRate (some "key") FetchResult.networkError "USD" "USD" = (1, 0) :=
  (fx_fallback_constants (some "key") FetchResult.networkError "USD" "USD").1 rfl

/-- Claim C9: the displayed gain/loss percentages are invariant under
the display-currency conversion — the rendered row leaves
`gain_loss_percent` unscaled while the adjacent amounts are converted,
and for any positive exchange rate the total percentage equals the one
computed at rate 1 (the scalar cancels in the ratio). -/
theorem gainLossPercent_rate_invariant :
    ∀ (holding : DisplayItem) (holdings : List DisplayItem) (r : ℚ),
      (renderRow holding r).gainLossPercent = holding.gain_loss_percent ∧
      (0 < r → totalGainLossPercent holdings r = totalGainLossPercent holdings 1) := by
  intro holding holdings r
  refine ⟨rfl, fun hr => ?_⟩
  have hrne : r ≠ 0 := ne_of_gt hr
  unfold totalGainLossPercent totalGainLoss totalMarketValue totalCostBasis
  set M := holdings.foldl (fun sum item => sum + item.market_value) 0 with hM
  set C := holdings.foldl (fun sum item => sum + item.cost_basis) 0 with hC
  by_cases hc : C = 0
  · simp [hc]
  · have hcr : C * r ≠ 0 := mul_ne_zero hc hrne
    rw [if_neg hcr, if_neg (by simpa using hc)]
    rw [mul_one, mul_one]
    field_simp
    ring

/-- Witness for C9: doubling the display rate leaves the total
percentage of the AAPL scenario unchanged. -/
theorem gainLossPercent_rate_invariant_witness :
    totalGainLossPercent [mkDisplayItem aaplPrices aaplHolding] 2 =
      totalGainLossPercent [mkDisplayItem aaplPrices aaplHolding] 1 :=
  (gainLossPercent_rate_invariant (mkDisplayItem aaplPrices aaplHolding)
    [mkDisplayItem aaplPrices aaplHolding] 2).2 (by norm_num)

end StockDashboard
